import Mathlib

/-!
Verification of the SAPDEMO retrieval pipeline.

This file gives a shallow embedding of the chunking-and-retrieval engine:
the document chunker (`src/document_processor/processor.py`), the two
vector-store backends (`src/vector_store/faiss_store.py`,
`src/vector_store/chroma_store.py`) and the ingestion orchestrator
(`src/rag_engine/rag_system.py`), and proves or refutes the frozen claims
about them.

Numeric values (float32 embeddings, distances, scores) are modelled as
rationals; Python lists as Lean lists; exceptions as `Except String`.
-/

/-- An embedding vector (one row of a numpy float array), as rationals. -/
abbrev Vec := List ℚ

/-- The metadata dictionary carried by a chunk.  The document-level fields
(`source`, `filename`) are spread into it by `process_document` together with
the stamped `chunk_index` / `total_chunks` (processor.py lines 53-60). -/
structure ChunkMetadata where
  source : String
  filename : String
  chunk_index : Nat
  total_chunks : Nat
deriving DecidableEq, Repr

/-- A chunk as produced by `DocumentProcessor.process_document`:
`{'text': ..., 'metadata': {...}}`. -/
structure Chunk where
  text : String
  metadata : ChunkMetadata
deriving DecidableEq, Repr

/-- A query result dictionary as built by either backend's `query`. -/
structure QueryResult where
  id : String
  text : String
  metadata : ChunkMetadata
  distance : ℚ
  score : ℚ
deriving DecidableEq, Repr

namespace FAISS

/-- State of `FAISSVectorStore`: the `IndexFlatL2` rows plus the two parallel
side tables `documents` and `metadatas` (faiss_store.py lines 39-41). -/
structure FAISSVectorStore where
  embedding_dim : Nat
  index : List Vec
  documents : List String
  metadatas : List ChunkMetadata
deriving DecidableEq, Repr

/-- `FLT_MAX`, the value faiss uses to initialise its k-nearest-neighbour
heaps; search slots for which no stored row is available keep this distance
and label `-1`.  Modelled as `2^128` (the float32 maximum
≈ 3.4e38 < 2^128). -/
def fltMax : ℚ := 2 ^ 128

/-- Squared L2 distance between two vectors, the quantity
`faiss.IndexFlatL2.search` reports in its distance array. -/
def sqDist (q v : Vec) : ℚ := (List.zipWith (fun a b => (a - b) ^ 2) q v).sum

/-- Ordering used by the modelled faiss search: ascending distance, ties
broken by ascending row id. -/
def searchLe (a b : ℚ × Int) : Prop :=
  a.1 < b.1 ∨ (a.1 = b.1 ∧ a.2 ≤ b.2)

instance : DecidableRel searchLe := fun a b => by
  unfold searchLe; infer_instance

instance : IsTotal (ℚ × Int) searchLe := by
  constructor
  intro a b
  rcases lt_trichotomy a.1 b.1 with h | h | h
  · exact Or.inl (Or.inl h)
  · rcases le_total a.2 b.2 with h2 | h2
    · exact Or.inl (Or.inr ⟨h, h2⟩)
    · exact Or.inr (Or.inr ⟨h.symm, h2⟩)
  · exact Or.inr (Or.inl h)

instance : IsTrans (ℚ × Int) searchLe := by
  constructor
  rintro a b c (h | ⟨he, h2⟩) (g | ⟨ge, g2⟩)
  · exact Or.inl (h.trans g)
  · exact Or.inl (ge ▸ h)
  · exact Or.inl (he ▸ g)
  · exact Or.inr ⟨he.trans ge, h2.trans g2⟩

/-- Model of `faiss.IndexFlatL2.search` on one query: the `k` result slots as
(squared distance, row id) pairs — the `min k n` nearest stored rows sorted by
ascending distance, and, when `k` exceeds the number of stored rows, the
remaining slots padded with `(FLT_MAX, -1)`. -/
def faissSearch (index : List Vec) (q : Vec) (k : Nat) : List (ℚ × Int) :=
  let scored := index.enum.map fun p => (sqDist q p.2, (p.1 : Int))
  (scored.insertionSort searchLe).take k ++
    List.replicate (k - index.length) (fltMax, -1)

/-- Python list indexing `xs[i]`: a negative index counts from the end;
out of range is an `IndexError` (`none`). -/
def pythonGet (xs : List α) (i : Int) : Option α :=
  if 0 ≤ i then xs.get? i.toNat
  else if 0 ≤ i + xs.length then xs.get? (i + xs.length).toNat
  else none

/-- The result-formatting loop of `FAISSVectorStore.query`
(faiss_store.py lines 95-108): for each `(distance, idx)` slot, if
`idx < len(self.documents)` build
`{'id': f"doc_{idx}", 'text': self.documents[idx], 'metadata':
self.metadatas[idx], 'distance': distance, 'score': 1/(1+distance)}`,
else skip the slot.  A list access that fails raises (`IndexError`). -/
def formatResults (docs : List String) (metas : List ChunkMetadata) :
    List (ℚ × Int) → Except String (List QueryResult)
  | [] => .ok []
  | (d, idx) :: rest =>
    if idx < (docs.length : Int) then
      match pythonGet docs idx, pythonGet metas idx with
      | some t, some m => do
        let tail ← formatResults docs metas rest
        .ok ({ id := "doc_" ++ toString idx, text := t, metadata := m,
               distance := d, score := 1 / (1 + d) } :: tail)
      | _, _ => .error "IndexError"
    else formatResults docs metas rest

/-- `FAISSVectorStore.query` (faiss_store.py lines 72-110): empty index
returns `[]`; otherwise search the index and format the result slots. -/
def query (st : FAISSVectorStore) (query_embedding : Vec) (top_k : Nat) :
    Except String (List QueryResult) :=
  if st.index.length = 0 then .ok []
  else formatResults st.documents st.metadatas (faissSearch st.index query_embedding top_k)

/-- `FAISSVectorStore.add_documents` (faiss_store.py lines 44-70):
`index.add` appends the embedding rows (faiss itself rejects rows whose
dimension differs from the index dimension), then every chunk's text and
metadata are appended to the side tables.  No comparison of
`len(chunks)` with the number of embedding rows is made anywhere. -/
def add_documents (st : FAISSVectorStore) (chunks : List Chunk)
    (embeddings : List Vec) : Except String FAISSVectorStore :=
  if embeddings.all fun v => v.length = st.embedding_dim then
    .ok { st with
          index := st.index ++ embeddings
          documents := st.documents ++ chunks.map Chunk.text
          metadatas := st.metadatas ++ chunks.map Chunk.metadata }
  else .error "faiss: adding vectors of wrong dimension"

/-- The pair of files written by `FAISSVectorStore.save_index`
(faiss_store.py lines 116-135): the native faiss serialisation of the index
rows, and the pickled `{'documents': ..., 'metadatas': ...}` dictionary. -/
structure SavedFiles where
  index_bin : List Vec
  pkl_documents : List String
  pkl_metadatas : List ChunkMetadata
deriving DecidableEq, Repr

/-- `FAISSVectorStore.save_index`. -/
def save_index (st : FAISSVectorStore) : SavedFiles :=
  { index_bin := st.index, pkl_documents := st.documents,
    pkl_metadatas := st.metadatas }

/-- `FAISSVectorStore.load_index` into an instance constructed with the given
`embedding_dim` (faiss_store.py lines 137-155). -/
def load_index (embedding_dim : Nat) (f : SavedFiles) : FAISSVectorStore :=
  { embedding_dim := embedding_dim, index := f.index_bin,
    documents := f.pkl_documents, metadatas := f.pkl_metadatas }

/-- `FAISSVectorStore.reset` (faiss_store.py lines 166-175). -/
def reset (st : FAISSVectorStore) : FAISSVectorStore :=
  { embedding_dim := st.embedding_dim, index := [], documents := [],
    metadatas := [] }

/-- A fresh `FAISSVectorStore` as built by `__init__` when no saved index
file exists yet (faiss_store.py lines 39-42). -/
def mkStore (embedding_dim : Nat) : FAISSVectorStore :=
  { embedding_dim := embedding_dim, index := [], documents := [],
    metadatas := [] }

end FAISS

/-- Sample metadata for concrete test stores. -/
def mdA : ChunkMetadata :=
  { source := "docs/a.pdf", filename := "a.pdf", chunk_index := 0,
    total_chunks := 2 }

/-- Second sample metadata. -/
def mdB : ChunkMetadata :=
  { source := "docs/a.pdf", filename := "a.pdf", chunk_index := 1,
    total_chunks := 2 }

/-- Sample chunk A. -/
def chunkA : Chunk := { text := "chunk A text", metadata := mdA }

/-- Sample chunk B. -/
def chunkB : Chunk := { text := "chunk B text", metadata := mdB }

namespace Processor

/-- The `DocumentProcessor` object: `__init__` (processor.py lines 17-26)
merely stores the two numbers — it performs no validation of any kind. -/
structure DocumentProcessor where
  chunk_size : Int
  chunk_overlap : Int
deriving DecidableEq, Repr

/-- `DocumentProcessor.__init__`: store `chunk_size` and `chunk_overlap`
unchecked. -/
def mkDocumentProcessor (chunk_size chunk_overlap : Int) : DocumentProcessor :=
  { chunk_size := chunk_size, chunk_overlap := chunk_overlap }

/-- The characters Python's `str.strip()` removes (ASCII whitespace). -/
def isPySpace (c : Char) : Bool :=
  c = ' ' ∨ c = '\t' ∨ c = '\n' ∨ c = '\r' ∨ c = '\x0b' ∨ c = '\x0c'

/-- Python `s.strip()`. -/
def pyStrip (s : List Char) : List Char :=
  ((s.dropWhile isPySpace).reverse.dropWhile isPySpace).reverse

/-- Python slicing `s[i:j]`: a negative bound counts from the end, then both
bounds are clamped to `[0, len(s)]`. -/
def pySlice (s : List Char) (i j : Int) : List Char :=
  let n : Int := s.length
  let lo := if i < 0 then max (n + i) 0 else min i n
  let hi := if j < 0 then max (n + j) 0 else min j n
  if lo < hi then (s.drop lo.toNat).take (hi - lo).toNat else []

/-- Whether `sub` occurs in `s` starting at position `i` (with the whole of
`sub` in bounds). -/
def matchesAt (s sub : List Char) (i : Nat) : Bool :=
  decide ((s.drop i).take sub.length = sub)

/-- Python `s.rfind(sub, start, stop)`: the largest `i` with
`start' ≤ i`, `i + len(sub) ≤ stop'` and `sub` matching at `i`
(`start`/`stop` normalised as in slicing); `-1` when there is none. -/
def pyRfind (s sub : List Char) (start stop : Int) : Int :=
  let n : Int := s.length
  let a := if start < 0 then max (n + start) 0 else min start n
  let b := if stop < 0 then max (n + stop) 0 else min stop n
  let hi := b - sub.length
  if hi < a then -1
  else
    match (List.range (hi - a).toNat.succ).reverse.find?
        (fun off => matchesAt s sub (a.toNat + off)) with
    | some off => a + off
    | none => -1

/-- The separator priority list of `_split_text`
(processor.py line 126): `["\n\n", "\n", ". ", "! ", "? "]`. -/
def seps : List (List Char) :=
  [['\n', '\n'], ['\n'], ['.', ' '], ['!', ' '], ['?', ' ']]

/-- The inner `for separator in [...]` loop (processor.py lines 126-130):
take the first separator in priority order for which `rfind` succeeds and
snap `end` to just after it; keep `end0` if none matches. -/
def snapLoop (s : List Char) (start end0 : Int) : List (List Char) → Int
  | [] => end0
  | sep :: rest =>
    let lb := pyRfind s sep start end0
    if lb = -1 then snapLoop s start end0 rest else lb + sep.length

/-- The `end` of the chunk that starts at `start`
(processor.py lines 121-130): tentative `start + chunk_size`, snapped onto a
separator when it does not reach the tail of the text. -/
def chunkEnd (chunk_size : Int) (s : List Char) (start : Int) : Int :=
  let end0 := start + chunk_size
  if end0 < (s.length : Int) then snapLoop s start end0 seps else end0

/-- The cursor update of `_split_text`
(processor.py line 138): `start = end - overlap if end < len(text) else end`. -/
def nextStart (chunk_size overlap : Int) (s : List Char) (start : Int) : Int :=
  let e := chunkEnd chunk_size s start
  if e < (s.length : Int) then e - overlap else e

/-- The `while start < len(text)` loop of `DocumentProcessor._split_text`
(processor.py lines 116-140), with an explicit fuel bound: `none` means the
loop did not terminate within `fuel` iterations (for NO fuel value, if the
loop diverges). -/
def splitTextFuel (chunk_size overlap : Int) (s : List Char) :
    Nat → Int → List (List Char) → Option (List (List Char))
  | 0, _, _ => none
  | fuel + 1, start, acc =>
    if start < (s.length : Int) then
      let e := chunkEnd chunk_size s start
      let chunk := pyStrip (pySlice s start e)
      let acc' := if chunk.isEmpty then acc else acc ++ [chunk]
      splitTextFuel chunk_size overlap s fuel
        (nextStart chunk_size overlap s start) acc'
    else some acc

/-- The document-level metadata handed over by the loader collaborator
(loaders.py): at least `source` and `filename`. -/
structure DocMetadata where
  source : String
  filename : String
deriving DecidableEq, Repr

/-- The metadata-stamping pass of `DocumentProcessor.process_document`
(processor.py lines 50-64): given the chunk list returned by `_split_text`,
each emitted chunk gets `chunk_index` = its position in emission order and
`total_chunks` = the length of the whole list. -/
def stampChunks (m : DocMetadata) (chunks : List String) : List Chunk :=
  chunks.enum.map fun p =>
    { text := p.2,
      metadata := { source := m.source, filename := m.filename,
                    chunk_index := p.1, total_chunks := chunks.length } }

/-- The statistics dictionary of `DocumentProcessor.get_document_stats`
(processor.py lines 142-169); `sources` is absent (`none`) for an empty
chunk list, and is modelled up to the (unordered) iteration order of the
Python `set`. -/
structure DocumentStats where
  total_chunks : Nat
  total_characters : Nat
  avg_chunk_size : Nat
  unique_sources : Nat
  sources : Option (List String)
deriving DecidableEq, Repr

/-- `DocumentProcessor.get_document_stats`. -/
def get_document_stats (chunks : List Chunk) : DocumentStats :=
  if chunks.isEmpty then
    { total_chunks := 0, total_characters := 0, avg_chunk_size := 0,
      unique_sources := 0, sources := none }
  else
    let total_chars := (chunks.map fun c => c.text.length).sum
    let sources := (chunks.map fun c => c.metadata.source).dedup
    { total_chunks := chunks.length, total_characters := total_chars,
      avg_chunk_size := total_chars / chunks.length,
      unique_sources := sources.length, sources := some sources }

end Processor

namespace Chroma

/-- One record of a ChromaDB collection. -/
structure ChromaRecord where
  id : String
  embedding : Vec
  document : String
  metadata : ChunkMetadata
deriving DecidableEq, Repr

/-- A ChromaDB collection (the named logical collection the store owns). -/
structure Collection where
  records : List ChromaRecord
deriving DecidableEq, Repr

/-- Pair up the four parallel argument lists into records. -/
def mkRecords : List String → List Vec → List String → List ChunkMetadata →
    List ChromaRecord
  | i :: is, e :: es, d :: ds, m :: ms =>
    { id := i, embedding := e, document := d, metadata := m } ::
      mkRecords is es ds ms
  | _, _, _, _ => []

/-- Modelled from the documented ChromaDB client contract:
`collection.add` requires the four lists to have equal lengths (else a
`ValueError`) and every submitted id to be new and unique
(else a duplicate-id error); on success it appends the records. -/
def collectionAdd (col : Collection) (ids : List String)
    (embeddings : List Vec) (documents : List String)
    (metadatas : List ChunkMetadata) : Except String Collection :=
  if ids.length = embeddings.length ∧ ids.length = documents.length ∧
      ids.length = metadatas.length then
    if (ids.any fun i => (col.records.map ChromaRecord.id).contains i) ∨
        ¬ ids.Nodup then
      .error "DuplicateIDError"
    else
      .ok { records := col.records ++ mkRecords ids embeddings documents metadatas }
  else .error "ValueError: unequal lengths"

/-- The batching loop of `ChromaVectorStore.add_documents`
(chroma_store.py lines 66-75): one `collection.add` per slice of 100,
`b` being the number of remaining batches. -/
def addBatches : Nat → Collection → List String → List Vec → List String →
    List ChunkMetadata → Except String Collection
  | 0, col, _, _, _, _ => .ok col
  | b + 1, col, ids, embs, docs, metas => do
    let col' ← collectionAdd col (ids.take 100) (embs.take 100)
      (docs.take 100) (metas.take 100)
    addBatches b col' (ids.drop 100) (embs.drop 100) (docs.drop 100)
      (metas.drop 100)

/-- The ids generated by `ChromaVectorStore.add_documents`
(chroma_store.py line 60): `doc_0 .. doc_{len(chunks)-1}`, computed from this
call's chunk count alone — the collection's existing contents are never
consulted. -/
def generatedIds (n : Nat) : List String :=
  (List.range n).map fun i => "doc_" ++ toString i

/-- `ChromaVectorStore.add_documents` (chroma_store.py lines 48-81). -/
def add_documents (col : Collection) (chunks : List Chunk)
    (embeddings : List Vec) : Except String Collection :=
  let ids := generatedIds chunks.length
  let documents := chunks.map Chunk.text
  let metadatas := chunks.map Chunk.metadata
  addBatches ((chunks.length + 99) / 100) col ids embeddings documents metadatas

/-- The raw response of `collection.query` (the ChromaDB library): parallel
result lists for one query embedding, distances in ascending order (cosine
distance, nearest first). -/
structure QueryResponse where
  ids : List String
  documents : List String
  metadatas : List ChunkMetadata
  distances : List ℚ
deriving DecidableEq, Repr

/-- The result-formatting loop of `ChromaVectorStore.query`
(chroma_store.py lines 103-112): for `i in range(len(ids))` read the `i`-th
entry of each parallel list and set `score = 1 - distance`; a missing entry
is an `IndexError`. -/
def formatQueryLoop : List String → List String → List ChunkMetadata →
    List ℚ → Except String (List QueryResult)
  | [], _, _, _ => .ok []
  | i :: ids, t :: ts, m :: ms, d :: ds => do
    let rest ← formatQueryLoop ids ts ms ds
    .ok ({ id := i, text := t, metadata := m, distance := d,
           score := 1 - d } :: rest)
  | _ :: _, _, _, _ => .error "IndexError"

/-- `ChromaVectorStore.query` applied to the library's response
(chroma_store.py lines 96-114). -/
def query (r : QueryResponse) : Except String (List QueryResult) :=
  formatQueryLoop r.ids r.documents r.metadatas r.distances

end Chroma

namespace RAG

/-- The dictionary returned by `SAPRAGSystem.ingest_documents` /
`ingest_single_document` (rag_system.py lines 99-102, 134-137):
`status`, an optional `message` and the optional statistics
(vector-store statistics omitted: not claim-relevant). -/
structure IngestResult where
  status : String
  message : Option String
  stats : Option Processor.DocumentStats
deriving DecidableEq, Repr

/-- `EmbeddingsGenerator.generate_embeddings`
(embeddings_generator.py lines 51-81) with the embedding model abstracted as
`embed`: an empty text list returns an empty array without invoking the
model. -/
def generate_embeddings (embed : List String → List Vec)
    (texts : List String) : List Vec :=
  if texts.isEmpty then [] else embed texts

/-- `SAPRAGSystem.ingest_documents` (rag_system.py lines 63-102) on the
default Chroma backend, with the directory-processing collaborator's output
passed in as `chunks` and the embedding model abstracted as `embed`.
Returns the result dictionary together with the vector-store state
(the save-if-faiss step and the vector-store statistics merge are omitted:
not claim-relevant on this backend). -/
def ingest_documents (embed : List String → List Vec)
    (col : Chroma.Collection) (chunks : List Chunk) :
    Except String (IngestResult × Chroma.Collection) :=
  if chunks.isEmpty then
    .ok ({ status := "error", message := some "Nenhum documento encontrado",
           stats := none }, col)
  else do
    let texts := chunks.map Chunk.text
    let embeddings := generate_embeddings embed texts
    let col' ← Chroma.add_documents col chunks embeddings
    .ok ({ status := "success", message := none,
           stats := some (Processor.get_document_stats chunks) }, col')

/-- `SAPRAGSystem.ingest_single_document` (rag_system.py lines 104-137):
identical pipeline but — unlike `ingest_documents` — with NO zero-chunk
guard before embedding and adding. -/
def ingest_single_document (embed : List String → List Vec)
    (col : Chroma.Collection) (chunks : List Chunk) :
    Except String (IngestResult × Chroma.Collection) := do
  let texts := chunks.map Chunk.text
  let embeddings := generate_embeddings embed texts
  let col' ← Chroma.add_documents col chunks embeddings
  .ok ({ status := "success", message := none,
         stats := some (Processor.get_document_stats chunks) }, col')

end RAG

/-- A store holding exactly one record, row `0 ↦ ([0], "t0", mdA)`. -/
def stOne : FAISS.FAISSVectorStore :=
  { embedding_dim := 1, index := [[0]], documents := ["t0"],
    metadatas := [mdA] }

/-- The store of the spec's FlatIndex example: dimension 4, two records. -/
def stEx4 : FAISS.FAISSVectorStore :=
  { embedding_dim := 4, index := [[1, 0, 0, 0], [0, 1, 0, 0]],
    documents := ["chunk A text", "chunk B text"], metadatas := [mdA, mdB] }

/-- The desynchronised store left behind by the C1 counterexample: two index
rows but a single side-table row. -/
def stMismatch : FAISS.FAISSVectorStore :=
  { embedding_dim := 1, index := [[1], [2]], documents := ["chunk A text"],
    metadatas := [mdA] }

/-- The C5 divergence input: five letters, a newline, then twenty letters
(26 characters in total). -/
def c5Text : List Char := "aaaaa\nbbbbbbbbbbbbbbbbbbbb".toList

namespace FAISS

theorem zipWith_sq_sum_nonneg :
    ∀ (q v : Vec), 0 ≤ (List.zipWith (fun a b => (a - b) ^ 2) q v).sum
  | [], _ => by simp
  | _ :: _, [] => by simp
  | a :: as, b :: bs => by
    simp only [List.zipWith_cons_cons, List.sum_cons]
    exact add_nonneg (sq_nonneg _) (zipWith_sq_sum_nonneg as bs)

theorem sqDist_nonneg (q v : Vec) : 0 ≤ sqDist q v :=
  zipWith_sq_sum_nonneg q v

theorem fltMax_nonneg : (0 : ℚ) ≤ fltMax := by norm_num [fltMax]

theorem faissSearch_mem {index : List Vec} {q : Vec} {k : Nat} {p : ℚ × Int}
    (hp : p ∈ faissSearch index q k) :
    (∃ v ∈ index, p.1 = sqDist q v) ∨ p = (fltMax, -1) := by
  unfold faissSearch at hp
  rcases List.mem_append.mp hp with h | h
  · have h2 : p ∈ (index.enum.map fun pr => (sqDist q pr.2, (pr.1 : Int))).insertionSort
        searchLe := List.mem_of_mem_take h
    rw [List.mem_insertionSort] at h2
    obtain ⟨pr, hpr, rfl⟩ := List.mem_map.mp h2
    exact Or.inl ⟨pr.2, List.snd_mem_of_mem_enum hpr, rfl⟩
  · exact Or.inr (List.eq_of_mem_replicate h)

theorem faissSearch_dist_nonneg {index : List Vec} {q : Vec} {k : Nat} :
    ∀ p ∈ faissSearch index q k, 0 ≤ p.1 := by
  intro p hp
  rcases faissSearch_mem hp with ⟨v, _, hv⟩ | h
  · exact hv ▸ sqDist_nonneg q v
  · rw [h]; exact fltMax_nonneg

theorem searchLe_dist_le {a b : ℚ × Int} (h : searchLe a b) : a.1 ≤ b.1 := by
  rcases h with h | ⟨h, _⟩
  · exact le_of_lt h
  · exact le_of_eq h

theorem faissSearch_sorted {index : List Vec} {q : Vec} {k : Nat}
    (hb : ∀ v ∈ index, sqDist q v ≤ fltMax) :
    (faissSearch index q k).Pairwise fun a b => a.1 ≤ b.1 := by
  unfold faissSearch
  rw [List.pairwise_append]
  refine ⟨?_, ?_, ?_⟩
  · have hs := List.sorted_insertionSort searchLe
      (index.enum.map fun pr => (sqDist q pr.2, (pr.1 : Int)))
    exact ((hs.sublist (List.take_sublist _ _)).imp fun h => searchLe_dist_le h)
  · exact List.pairwise_replicate.mpr (Or.inr le_rfl)
  · intro a ha b hbm
    have hb2 := List.eq_of_mem_replicate hbm
    have ha2 : a ∈ (index.enum.map fun pr => (sqDist q pr.2, (pr.1 : Int))).insertionSort
        searchLe := List.mem_of_mem_take ha
    rw [List.mem_insertionSort] at ha2
    obtain ⟨pr, hpr, rfl⟩ := List.mem_map.mp ha2
    rw [hb2]
    exact hb pr.2 (List.snd_mem_of_mem_enum hpr)

theorem formatResults_ok_mem (docs : List String) (metas : List ChunkMetadata) :
    ∀ (pairs : List (ℚ × Int)) (out : List QueryResult),
      formatResults docs metas pairs = .ok out →
      ∀ r ∈ out, r.score = 1 / (1 + r.distance) ∧ ∃ p ∈ pairs, r.distance = p.1
  | [], out, h => by
    rw [formatResults] at h
    cases h
    simp
  | (d, idx) :: rest, out, h => by
    rw [formatResults] at h
    split at h
    · cases hdoc : pythonGet docs idx with
      | none =>
        rw [hdoc] at h
        cases hmeta : pythonGet metas idx <;> rw [hmeta] at h <;> cases h
      | some t =>
        rw [hdoc] at h
        cases hmeta : pythonGet metas idx with
        | none => rw [hmeta] at h; cases h
        | some m =>
          rw [hmeta] at h
          cases hrest : formatResults docs metas rest with
          | error e =>
            rw [hrest] at h
            cases h
          | ok tail =>
            rw [hrest] at h
            cases h
            intro r hr
            rcases List.mem_cons.mp hr with rfl | hr2
            · exact ⟨rfl, (d, idx), List.mem_cons_self _ _, rfl⟩
            · obtain ⟨hs, p, hp, hd⟩ :=
                formatResults_ok_mem docs metas rest tail hrest r hr2
              exact ⟨hs, p, List.mem_cons_of_mem _ hp, hd⟩
    · intro r hr
      obtain ⟨hs, p, hp, hd⟩ := formatResults_ok_mem docs metas rest out h r hr
      exact ⟨hs, p, List.mem_cons_of_mem _ hp, hd⟩

theorem score_antitone {d1 d2 : ℚ} (h0 : 0 ≤ d1) (h : d1 ≤ d2) :
    1 / (1 + d2) ≤ 1 / (1 + d1) :=
  one_div_le_one_div_of_le (by linarith) (by linarith)

theorem formatResults_sorted (docs : List String) (metas : List ChunkMetadata) :
    ∀ (pairs : List (ℚ × Int)) (out : List QueryResult),
      pairs.Pairwise (fun a b => a.1 ≤ b.1) → (∀ p ∈ pairs, 0 ≤ p.1) →
      formatResults docs metas pairs = .ok out →
      out.Pairwise fun r1 r2 => r2.score ≤ r1.score
  | [], out, _, _, h => by
    rw [formatResults] at h
    cases h
    exact List.Pairwise.nil
  | (d, idx) :: rest, out, hpw, hnn, h => by
    rw [formatResults] at h
    rw [List.pairwise_cons] at hpw
    split at h
    · cases hdoc : pythonGet docs idx with
      | none =>
        rw [hdoc] at h
        cases hmeta : pythonGet metas idx <;> rw [hmeta] at h <;> cases h
      | some t =>
        rw [hdoc] at h
        cases hmeta : pythonGet metas idx with
        | none => rw [hmeta] at h; cases h
        | some m =>
          rw [hmeta] at h
          cases hrest : formatResults docs metas rest with
          | error e => rw [hrest] at h; cases h
          | ok tail =>
            rw [hrest] at h
            cases h
            rw [List.pairwise_cons]
            constructor
            · intro r hr
              obtain ⟨hs, p, hp, hdist⟩ :=
                formatResults_ok_mem docs metas rest tail hrest r hr
              have hd0 : (0 : ℚ) ≤ d := hnn (d, idx) (List.mem_cons_self _ _)
              have hdp : d ≤ p.1 := hpw.1 p hp
              rw [hs, hdist]
              exact score_antitone hd0 hdp
            · exact formatResults_sorted docs metas rest tail hpw.2
                (fun p hp => hnn p (List.mem_cons_of_mem _ hp)) hrest
    · exact formatResults_sorted docs metas rest out hpw.2
        (fun p hp => hnn p (List.mem_cons_of_mem _ hp)) h

end FAISS

/-- C1 (counterexample): on the FAISS backend, `add_documents` called with one
chunk but two embedding vectors does NOT fail — it returns normally, adds
both vectors to the index and appends the single chunk to the side tables,
leaving an index row with no matching text/metadata row
(`index.length = 2 ≠ 1 = documents.length`). -/
theorem C1_add_mismatch_counterexample :
    FAISS.add_documents (FAISS.mkStore 1) [chunkA] [[1], [2]] =
      .ok stMismatch ∧
    [chunkA].length ≠ ([[1], [2]] : List Vec).length ∧
    stMismatch.index.length ≠ stMismatch.documents.length :=
  ⟨rfl, by decide, by decide⟩

/-- C1 (amended): the FAISS backend's `add_documents` performs no length
check at all: whenever the embedding rows have the right dimension (the only
thing faiss itself checks), the call succeeds — for ANY chunk count — and
appends all embedding rows to the index and all chunks to the side tables,
so a length mismatch is silently accepted and leaves the row counts
desynchronised.  (On the Chroma backend a mismatch does surface as an error,
raised by the library's own length validation, not by this code.) -/
theorem C1_amended_faiss_add_unchecked (st : FAISS.FAISSVectorStore)
    (chunks : List Chunk) (embeddings : List Vec)
    (hdim : ∀ v ∈ embeddings, v.length = st.embedding_dim) :
    FAISS.add_documents st chunks embeddings =
      .ok { embedding_dim := st.embedding_dim
            index := st.index ++ embeddings
            documents := st.documents ++ chunks.map Chunk.text
            metadatas := st.metadatas ++ chunks.map Chunk.metadata } := by
  have h : (embeddings.all fun v => v.length = st.embedding_dim) = true := by
    simp only [List.all_eq_true, decide_eq_true_eq]
    exact hdim
  simp [FAISS.add_documents, h]

/-- C1 (witness): the amended theorem applied to the counterexample input. -/
theorem C1_amended_faiss_add_unchecked_witness :
    (∀ v ∈ ([[1], [2]] : List Vec), v.length = (FAISS.mkStore 1).embedding_dim) ∧
    FAISS.add_documents (FAISS.mkStore 1) [chunkA] [[1], [2]] =
      .ok { embedding_dim := (FAISS.mkStore 1).embedding_dim
            index := (FAISS.mkStore 1).index ++ [[1], [2]]
            documents := (FAISS.mkStore 1).documents ++ [chunkA].map Chunk.text
            metadatas := (FAISS.mkStore 1).metadatas ++ [chunkA].map Chunk.metadata } :=
  ⟨by decide, C1_amended_faiss_add_unchecked (FAISS.mkStore 1) [chunkA]
    [[1], [2]] (by decide)⟩

/-- C3: for every (non-empty) FAISS store, saving and then loading into a
fresh instance over the same files yields a store whose `query` results are
identical to the original's, for every query vector and every k. -/
theorem C3_faiss_save_load_roundtrip (st : FAISS.FAISSVectorStore) (q : Vec)
    (k : Nat) (_hne : st.index ≠ []) :
    FAISS.query (FAISS.load_index st.embedding_dim (FAISS.save_index st)) q k =
      FAISS.query st q k := rfl

/-- C3 (witness): the round-trip theorem applied to a concrete one-record
store. -/
theorem C3_faiss_save_load_roundtrip_witness :
    stOne.index ≠ [] ∧
    FAISS.query (FAISS.load_index stOne.embedding_dim (FAISS.save_index stOne))
        [3] 2 = FAISS.query stOne [3] 2 :=
  ⟨by decide, C3_faiss_save_load_roundtrip stOne [3] 2 (by decide)⟩

namespace Chroma

theorem formatQueryLoop_ok_mem :
    ∀ (ids ts : List String) (ms : List ChunkMetadata) (ds : List ℚ)
      (out : List QueryResult), formatQueryLoop ids ts ms ds = .ok out →
      ∀ r ∈ out, r.score = 1 - r.distance ∧ r.distance ∈ ds
  | [], _, _, _, out, h => by
    rw [show formatQueryLoop [] _ _ _ = .ok [] from rfl] at h
    cases h
    simp
  | i :: ids, t :: ts, m :: ms, d :: ds, out, h => by
    rw [show formatQueryLoop (i :: ids) (t :: ts) (m :: ms) (d :: ds) =
        (formatQueryLoop ids ts ms ds).bind
          (fun rest => .ok (QueryResult.mk i t m d (1 - d) :: rest)) from
      rfl] at h
    cases hrest : formatQueryLoop ids ts ms ds with
    | error e => rw [hrest] at h; cases h
    | ok rest =>
      rw [hrest] at h
      cases h
      intro r hr
      rcases List.mem_cons.mp hr with rfl | hr2
      · exact ⟨rfl, List.mem_cons_self _ _⟩
      · obtain ⟨hs, hd⟩ := formatQueryLoop_ok_mem ids ts ms ds rest hrest r hr2
        exact ⟨hs, List.mem_cons_of_mem _ hd⟩
  | _ :: _, [], _, _, out, h => by exact Except.noConfusion h
  | _ :: _, _ :: _, [], _, out, h => by exact Except.noConfusion h
  | _ :: _, _ :: _, _ :: _, [], out, h => by exact Except.noConfusion h

theorem formatQueryLoop_sorted :
    ∀ (ids ts : List String) (ms : List ChunkMetadata) (ds : List ℚ)
      (out : List QueryResult), ds.Pairwise (· ≤ ·) →
      formatQueryLoop ids ts ms ds = .ok out →
      out.Pairwise fun r1 r2 => r2.score ≤ r1.score
  | [], _, _, _, out, _, h => by
    rw [show formatQueryLoop [] _ _ _ = .ok [] from rfl] at h
    cases h
    exact List.Pairwise.nil
  | i :: ids, t :: ts, m :: ms, d :: ds, out, hpw, h => by
    rw [show formatQueryLoop (i :: ids) (t :: ts) (m :: ms) (d :: ds) =
        (formatQueryLoop ids ts ms ds).bind
          (fun rest => .ok (QueryResult.mk i t m d (1 - d) :: rest)) from
      rfl] at h
    rw [List.pairwise_cons] at hpw
    cases hrest : formatQueryLoop ids ts ms ds with
    | error e => rw [hrest] at h; cases h
    | ok rest =>
      rw [hrest] at h
      cases h
      rw [List.pairwise_cons]
      constructor
      · intro r hr
        obtain ⟨hs, hd⟩ := formatQueryLoop_ok_mem ids ts ms ds rest hrest r hr
        have : d ≤ r.distance := hpw.1 _ hd
        rw [hs]
        simp only
        linarith
      · exact formatQueryLoop_sorted ids ts ms ds rest hpw.2 hrest
  | _ :: _, [], _, _, out, _, h => by exact Except.noConfusion h
  | _ :: _, _ :: _, [], _, out, _, h => by exact Except.noConfusion h
  | _ :: _, _ :: _, _ :: _, [], out, _, h => by exact Except.noConfusion h

end Chroma

/-- C6: on the FAISS backend every returned result's score equals
`1 / (1 + distance)` (where `distance` is the value the faiss search
reports), lies in `(0, 1]`, and is strictly decreasing in distance; and the
spec's concrete example — a dimension-4 store holding chunkA/chunkB with
unit vectors, queried with chunkA's own vector and `k = 1` — returns
chunkA's record with `distance = 0` and `score = 1`. -/
theorem C6_faiss_score_semantics :
    (∀ (st : FAISS.FAISSVectorStore) (q : Vec) (k : Nat)
        (out : List QueryResult), st.index ≠ [] →
        FAISS.query st q k = .ok out →
        (∀ r ∈ out, r.score = 1 / (1 + r.distance) ∧ 0 < r.score ∧ r.score ≤ 1) ∧
        (∀ r1 ∈ out, ∀ r2 ∈ out, r1.distance < r2.distance →
          r2.score < r1.score)) ∧
    (FAISS.add_documents (FAISS.mkStore 4) [chunkA, chunkB]
        [[1, 0, 0, 0], [0, 1, 0, 0]] = .ok stEx4 ∧
      (FAISS.query stEx4 [1, 0, 0, 0] 1).map
          (fun rs => rs.map fun r => (r.id, r.text, r.distance, r.score)) =
        .ok [("doc_0", "chunk A text", 0, 1)]) := by
  constructor
  · intro st q k out hne hq
    unfold FAISS.query at hq
    rw [if_neg (fun hlen => hne (List.length_eq_zero.mp hlen))] at hq
    have hmem := FAISS.formatResults_ok_mem st.documents st.metadatas _ out hq
    have hnn : ∀ r ∈ out, 0 ≤ r.distance := by
      intro r hr
      obtain ⟨-, p, hp, hd⟩ := hmem r hr
      exact hd ▸ FAISS.faissSearch_dist_nonneg p hp
    constructor
    · intro r hr
      obtain ⟨hs, -, -, -⟩ := hmem r hr
      have h0 := hnn r hr
      refine ⟨hs, ?_, ?_⟩
      · rw [hs]
        exact one_div_pos.mpr (by linarith)
      · rw [hs]
        rw [div_le_one (by linarith)]
        linarith
    · intro r1 h1 r2 h2 hlt
      obtain ⟨hs1, -⟩ := hmem r1 h1
      obtain ⟨hs2, -⟩ := hmem r2 h2
      have h0 := hnn r1 h1
      rw [hs1, hs2]
      exact one_div_lt_one_div_of_lt (by linarith) (by linarith)
  · constructor
    · rfl
    · have hd0 : FAISS.sqDist [1, 0, 0, 0] [1, 0, 0, 0] = 0 := by
        norm_num [FAISS.sqDist]
      have hd1 : FAISS.sqDist [1, 0, 0, 0] [0, 1, 0, 0] = 2 := by
        norm_num [FAISS.sqDist]
      have hkey : FAISS.searchLe
          (FAISS.sqDist [1, 0, 0, 0] [1, 0, 0, 0], (0 : Int))
          (FAISS.sqDist [1, 0, 0, 0] [0, 1, 0, 0], (1 : Int)) := by
        refine Or.inl ?_
        show FAISS.sqDist [1, 0, 0, 0] [1, 0, 0, 0] <
          FAISS.sqDist [1, 0, 0, 0] [0, 1, 0, 0]
        rw [hd0, hd1]
        norm_num
      have hq : FAISS.query stEx4 [1, 0, 0, 0] 1 =
          FAISS.formatResults stEx4.documents stEx4.metadatas
            ((List.insertionSort FAISS.searchLe
              [(FAISS.sqDist [1, 0, 0, 0] [1, 0, 0, 0], (0 : Int)),
               (FAISS.sqDist [1, 0, 0, 0] [0, 1, 0, 0], (1 : Int))]).take 1 ++
             List.replicate 0 (FAISS.fltMax, -1)) := rfl
      have hsort : List.insertionSort FAISS.searchLe
          [(FAISS.sqDist [1, 0, 0, 0] [1, 0, 0, 0], (0 : Int)),
           (FAISS.sqDist [1, 0, 0, 0] [0, 1, 0, 0], (1 : Int))] =
          [(FAISS.sqDist [1, 0, 0, 0] [1, 0, 0, 0], (0 : Int)),
           (FAISS.sqDist [1, 0, 0, 0] [0, 1, 0, 0], (1 : Int))] :=
        List.orderedInsert_of_le FAISS.searchLe [] hkey
      rw [hq, hsort]
      simp [FAISS.formatResults, FAISS.pythonGet, stEx4, hd0]
      rfl

/-- C7: on both backends, every query's result list is sorted by score in
non-increasing order.  FAISS side: for every store, query vector and k
(under the float32-faithfulness bound that no stored row's squared distance
exceeds `FLT_MAX`); Chroma side: for every library response whose distance
list is ascending (the library's contract), the formatted results'
`1 - distance` scores are non-increasing. -/
theorem C7_scores_sorted :
    (∀ (st : FAISS.FAISSVectorStore) (q : Vec) (k : Nat)
        (out : List QueryResult),
        (∀ v ∈ st.index, FAISS.sqDist q v ≤ FAISS.fltMax) →
        FAISS.query st q k = .ok out →
        out.Pairwise fun r1 r2 => r2.score ≤ r1.score) ∧
    (∀ (r : Chroma.QueryResponse) (out : List QueryResult),
        r.distances.Pairwise (· ≤ ·) →
        Chroma.query r = .ok out →
        out.Pairwise fun r1 r2 => r2.score ≤ r1.score) := by
  constructor
  · intro st q k out hb hq
    unfold FAISS.query at hq
    split at hq
    · cases hq
      exact List.Pairwise.nil
    · exact FAISS.formatResults_sorted st.documents st.metadatas _ out
        ((FAISS.faissSearch_sorted hb).imp fun h => h)
        FAISS.faissSearch_dist_nonneg hq
  · intro r out hpw hq
    exact Chroma.formatQueryLoop_sorted r.ids r.documents r.metadatas
      r.distances out hpw hq

/-- C7 (witness): the FAISS half applied to a one-record store (whose single
squared distance, 9, is below `FLT_MAX`), and the Chroma half applied to a
one-row response with the sorted distance list `[1/2]`. -/
theorem C7_scores_sorted_witness :
    (∀ v ∈ stOne.index, FAISS.sqDist [3] v ≤ FAISS.fltMax) ∧
    ([(1 : ℚ) / 2]).Pairwise (· ≤ ·) ∧
    ([{ id := "doc_0", text := "t0", metadata := mdA,
        distance := FAISS.sqDist [3] [0],
        score := 1 / (1 + FAISS.sqDist [3] [0]) }] : List QueryResult).Pairwise
      (fun r1 r2 => r2.score ≤ r1.score) ∧
    ([{ id := "doc_0", text := "t", metadata := mdA, distance := 1 / 2,
        score := 1 - 1 / 2 }] : List QueryResult).Pairwise
      (fun r1 r2 => r2.score ≤ r1.score) := by
  have hb : ∀ v ∈ stOne.index, FAISS.sqDist [3] v ≤ FAISS.fltMax := by
    intro v hv
    simp only [stOne, List.mem_singleton] at hv
    subst hv
    norm_num [FAISS.sqDist, FAISS.fltMax]
  refine ⟨hb, by simp, ?_, ?_⟩
  · exact C7_scores_sorted.1 stOne [3] 1 _ hb rfl
  · exact C7_scores_sorted.2
      { ids := ["doc_0"], documents := ["t"], metadatas := [mdA],
        distances := [1 / 2] } _ (by simp) rfl

/-- C10: refuted — querying a one-record FAISS store with `k = 2` returns
TWO results, not `min(k, record_count) = 1`: faiss pads the missing
neighbour slot with row id `-1`, the guard `idx < len(self.documents)`
accepts `-1`, and Python's negative indexing then fabricates a second result
(`id = "doc_-1"`) out of the LAST stored row's text and metadata.  (The
empty-index part of the claim does hold: the final conjunct.) -/
theorem C10_faiss_query_padding_leak :
    (FAISS.query stOne [3] 2).map (fun rs => rs.map QueryResult.id) =
      .ok ["doc_0", "doc_-1"] ∧
    (FAISS.query stOne [3] 2).map (fun rs => rs.map QueryResult.text) =
      .ok ["t0", "t0"] ∧
    (FAISS.query stOne [3] 2).map List.length = .ok 2 ∧
    min 2 stOne.index.length = 1 ∧
    FAISS.query (FAISS.mkStore 1) [3] 2 = .ok [] :=
  ⟨rfl, rfl, rfl, rfl, rfl⟩

theorem split_step_c4 (fuel : Nat) (acc : List (List Char)) :
    Processor.splitTextFuel 2 2 "abcd".toList (fuel + 1) 0 acc =
      Processor.splitTextFuel 2 2 "abcd".toList fuel 0 (acc ++ [['a', 'b']]) :=
  rfl

theorem split_c4_diverges :
    ∀ (fuel : Nat) (acc : List (List Char)),
      Processor.splitTextFuel 2 2 "abcd".toList fuel 0 acc = none := by
  intro fuel
  induction fuel with
  | zero => intro acc; rfl
  | succ n ih =>
    intro acc
    rw [split_step_c4]
    exact ih _

/-- C4: refuted (code bug) — `DocumentProcessor.__init__` accepts
`overlap >= chunk_size` without any error: it merely stores the two numbers,
there is no validation anywhere, and `_split_text` then loops forever (on
`"abcd"` with `chunk_size = 2 = overlap` the cursor returns to 0 after every
iteration, so no amount of fuel makes the loop terminate). -/
theorem C4_no_overlap_guard :
    Processor.mkDocumentProcessor 2 2 =
      { chunk_size := 2, chunk_overlap := 2 } ∧
    (Processor.mkDocumentProcessor 2 2).chunk_size ≤
      (Processor.mkDocumentProcessor 2 2).chunk_overlap ∧
    ∀ fuel : Nat, Processor.splitTextFuel 2 2 "abcd".toList fuel 0 [] = none :=
  ⟨rfl, by decide, fun fuel => split_c4_diverges fuel []⟩

theorem split_step_c5_start (fuel : Nat) (acc : List (List Char)) :
    Processor.splitTextFuel 10 1 c5Text (fuel + 1) 0 acc =
      Processor.splitTextFuel 10 1 c5Text fuel 5 (acc ++ ["aaaaa".toList]) :=
  rfl

theorem split_step_c5_loop (fuel : Nat) (acc : List (List Char)) :
    Processor.splitTextFuel 10 1 c5Text (fuel + 1) 5 acc =
      Processor.splitTextFuel 10 1 c5Text fuel 5 acc :=
  rfl

theorem split_c5_stuck :
    ∀ (fuel : Nat) (acc : List (List Char)),
      Processor.splitTextFuel 10 1 c5Text fuel 5 acc = none := by
  intro fuel
  induction fuel with
  | zero => intro acc; rfl
  | succ n ih =>
    intro acc
    rw [split_step_c5_loop]
    exact ih _

/-- C5: refuted (code bug) — even with a VALID configuration
(`chunk_size = 10 > 0`, `0 ≤ overlap = 1 < 10`) the split loop need not
terminate, and the cursor does NOT strictly advance on every iteration: on
`c5Text` (`"aaaaa\n" + 20×"b"`) the separator snap sets `end = 6`, so from
`start = 5` the update `start = end - overlap` yields 5 again, forever. -/
theorem C5_split_nontermination :
    ((0 : Int) < 10 ∧ (0 : Int) ≤ 1 ∧ (1 : Int) < 10) ∧
    Processor.nextStart 10 1 c5Text 5 = 5 ∧
    (5 : Int) < c5Text.length ∧
    ∀ fuel : Nat, Processor.splitTextFuel 10 1 c5Text fuel 0 [] = none := by
  refine ⟨by decide, rfl, by decide, ?_⟩
  intro fuel
  cases fuel with
  | zero => rfl
  | succ n =>
    rw [split_step_c5_start]
    exact split_c5_stuck n _

/-- C9: for every document metadata and every chunk list produced by the
split, `process_document`'s stamping pass gives every emitted chunk
`total_chunks` equal to the number N of chunks, and `chunk_index` equal to
its 0-based position (hence exactly 0..N-1, no gaps or repeats). -/
theorem C9_metadata_stamping (m : Processor.DocMetadata)
    (chunks : List String) :
    (Processor.stampChunks m chunks).length = chunks.length ∧
    ∀ (i : Nat) (h : i < (Processor.stampChunks m chunks).length),
      ((Processor.stampChunks m chunks).get ⟨i, h⟩).metadata.total_chunks =
        chunks.length ∧
      ((Processor.stampChunks m chunks).get ⟨i, h⟩).metadata.chunk_index = i := by
  constructor
  · simp [Processor.stampChunks]
  · intro i h
    constructor
    · simp [Processor.stampChunks, List.enum]
    · simp [Processor.stampChunks, List.enum]

/-- C9 (witness): the stamping theorem applied to a concrete two-chunk
document, position 1. -/
theorem C9_metadata_stamping_witness :
    1 < (Processor.stampChunks { source := "s", filename := "f" }
      ["x", "y"]).length ∧
    ((Processor.stampChunks { source := "s", filename := "f" }
        ["x", "y"]).get ⟨1, by decide⟩).metadata.total_chunks = 2 ∧
    ((Processor.stampChunks { source := "s", filename := "f" }
        ["x", "y"]).get ⟨1, by decide⟩).metadata.chunk_index = 1 := by
  have h := C9_metadata_stamping { source := "s", filename := "f" } ["x", "y"]
  exact ⟨by decide, (h.2 1 (by decide)).1, (h.2 1 (by decide)).2⟩

/-- C2: refuted (code bug) — the Chroma backend's `add_documents` generates
record ids as `doc_0 .. doc_{n-1}` from the CURRENT call's chunk count only,
never consulting the collection: a first one-chunk add stores id `doc_0`,
and a second one-chunk add generates the very same id `doc_0` again, which
the collection rejects as a duplicate — ids are reused across add calls
instead of staying unique, so no second batch can ever be stored. -/
theorem C2_chroma_duplicate_ids :
    Chroma.generatedIds 1 = ["doc_0"] ∧
    Chroma.add_documents { records := [] } [chunkA] [[1]] =
      .ok { records := [{ id := "doc_0", embedding := [1],
                          document := "chunk A text", metadata := mdA }] } ∧
    Chroma.add_documents
        { records := [{ id := "doc_0", embedding := [1],
                        document := "chunk A text", metadata := mdA }] }
        [chunkB] [[2]] = .error "DuplicateIDError" :=
  ⟨rfl, rfl, rfl⟩

/-- C8 (counterexample): `ingest_single_document` applied to a document whose
split produced zero chunks does NOT short-circuit with an error: it returns
`status = "success"` (with empty statistics). -/
theorem C8_single_doc_counterexample :
    RAG.ingest_single_document (fun _ => []) { records := [] } [] =
      .ok ({ status := "success", message := none,
             stats := some { total_chunks := 0, total_characters := 0,
                             avg_chunk_size := 0, unique_sources := 0,
                             sources := none } }, { records := [] }) ∧
    "success" ≠ "error" :=
  ⟨rfl, by decide⟩

/-- C8 (amended): directory ingestion (`ingest_documents`) with zero chunks
short-circuits exactly as the claim says — error status with a message, the
vector index returned unchanged, and the result independent of the embedding
collaborator (it is never invoked).  Single-document ingestion
(`ingest_single_document`) performs NO zero-chunk check and reports success;
it still leaves the index unchanged and never invokes the embedding model
(the empty-text-list guard inside `generate_embeddings` returns an empty
array first). -/
theorem C8_amended_zero_chunk_ingest (embed embed2 : List String → List Vec)
    (col : Chroma.Collection) :
    RAG.ingest_documents embed col [] =
      .ok ({ status := "error", message := some "Nenhum documento encontrado",
             stats := none }, col) ∧
    RAG.ingest_documents embed col [] = RAG.ingest_documents embed2 col [] ∧
    RAG.ingest_single_document embed col [] =
      .ok ({ status := "success", message := none,
             stats := some { total_chunks := 0, total_characters := 0,
                             avg_chunk_size := 0, unique_sources := 0,
                             sources := none } }, col) ∧
    RAG.ingest_single_document embed col [] =
      RAG.ingest_single_document embed2 col [] :=
  ⟨rfl, rfl, rfl, rfl⟩

/-- C6 (witness): the general score-semantics part applied to a concrete
non-empty one-record store. -/
theorem C6_faiss_score_semantics_witness :
    stOne.index ≠ [] ∧
    ∀ r ∈ [QueryResult.mk "doc_0" "t0" mdA (FAISS.sqDist [3] [0])
        (1 / (1 + FAISS.sqDist [3] [0]))],
      r.score = 1 / (1 + r.distance) ∧ 0 < r.score ∧ r.score ≤ 1 := by
  have h := (C6_faiss_score_semantics.1 stOne [3] 1
    [QueryResult.mk "doc_0" "t0" mdA (FAISS.sqDist [3] [0])
      (1 / (1 + FAISS.sqDist [3] [0]))] (by decide) rfl).1
  exact ⟨by decide, h⟩
